import Mathlib

/-!
Shallow embedding of the chainer-graph-cnn repository:
`lib/links/connection/graph_convolution.py` (the GraphConvolution link) and
`lib/models/graph_cnn.py` (the GraphCNN model).

Matrices are lists of rows of rationals.  Device placement (numpy vs cupy)
is modelled by a `Device` tag on each buffer; transferring a buffer changes
only its tag, never its logical value, mirroring `to_cpu`/`to_gpu`.
Parts of the repository that are not under `src/` (`lib.graph`,
`lib.coarsening`, `lib.functions.*`) are modelled from the spec; each such
definition says so in its doc comment.
-/

namespace ChainerGraphCNN

/-- Adjacency / weight matrix: a list of rows. -/
abbrev Mat := List (List ℚ)

/-- The error kinds of the spec (section 7). -/
inductive GCError where
  | InvalidGraphError
  | ConfigurationError
  | ShapeError
  | DeviceMismatchError
deriving DecidableEq, Repr

/-- Entry lookup with zero default, matching dense indexing. -/
def entry (A : Mat) (i j : Nat) : ℚ := (A.getD i []).getD j 0

/-- Every row has length equal to the number of rows. -/
def isSquare (A : Mat) : Bool := A.all (fun r => r.length == A.length)

/-- All weights are non-negative. -/
def isNonneg (A : Mat) : Bool := A.all (fun r => r.all (fun v => decide ((0:ℚ) ≤ v)))

/-- The matrix equals its transpose (tolerance zero in the rational model). -/
def isSymmetric (A : Mat) : Bool :=
  (List.range A.length).all fun i =>
    (List.range A.length).all fun j => entry A i j == entry A j i

/-- A valid adjacency matrix: square, non-negative, symmetric. -/
def validAdjacency (A : Mat) : Bool := isSquare A && isNonneg A && isSymmetric A

/-- The rescaled graph Laplacian.  Its numeric entries involve real square
roots (degree normalisation) which no claim consumes, so the operator is
represented by the adjacency matrix that determines it. -/
structure Laplacian where
  source : Mat
deriving DecidableEq, Repr

/-- Modelled from the spec: `lib.graph.create_laplacian` (file absent from
`src/`).  Validates the adjacency matrix and deterministically derives the
rescaled normalized Laplacian; fails with `InvalidGraphError` when the
matrix is non-square, has negative weights, or is asymmetric. -/
def create_laplacian (A : Mat) : Except GCError Laplacian :=
  if validAdjacency A then .ok ⟨A⟩ else .error .InvalidGraphError

/-- Numeric backend a buffer lives on: numpy (cpu) or cupy (gpu with an
optional device id). -/
inductive Device where
  | cpu
  | gpu : Option Nat → Device
deriving DecidableEq, Repr

/-- A dense array: its shape and (flattened) contents. -/
structure Arr where
  shape : List Nat
  data : List ℚ
deriving DecidableEq, Repr

/-- A chainer `Parameter`: possibly uninitialized (`Parameter()` has no
array yet) and carrying a device tag. -/
structure Param where
  arr : Option Arr
  dev : Device
deriving DecidableEq, Repr

/-- `Parameter.to_cpu`: move to the cpu backend, value unchanged. -/
def Param.to_cpu (p : Param) : Param := { p with dev := .cpu }

/-- `Parameter.to_gpu`: move to the gpu backend, value unchanged. -/
def Param.to_gpu (p : Param) (device : Option Nat) : Param := { p with dev := .gpu device }

/-- `GraphConvolutionFunction(L, K)` from
`lib/functions/connection/graph_convolution.py` (file absent from `src/`).
Modelled from the spec: the filter owns the rescaled Laplacian as an
internal buffer together with the polynomial order `K`; the buffer carries
a device tag moved by its transfer hooks. -/
structure GraphConvolutionFunction where
  LL : Laplacian
  K : Nat
  dev : Device
deriving DecidableEq, Repr

/-- Modelled from the spec: the filter transfer hook moves the internal
Laplacian buffer to cpu without changing its logical value. -/
def GraphConvolutionFunction.to_cpu (f : GraphConvolutionFunction) :
    GraphConvolutionFunction := { f with dev := .cpu }

/-- Modelled from the spec: the filter transfer hook moves the internal
Laplacian buffer to gpu without changing its logical value. -/
def GraphConvolutionFunction.to_gpu (f : GraphConvolutionFunction) (device : Option Nat) :
    GraphConvolutionFunction := { f with dev := .gpu device }

/-- One application of the filter function.  The forward numerics
(Chebyshev recurrence) live in the absent `lib/functions` file; the spec
treats the filter as an opaque numerical transform of `(x, L-tilde, W, b)`,
so an application is recorded by the exact arguments handed to it. -/
structure FuncCall where
  func : GraphConvolutionFunction
  x : Arr
  W : Param
  b : Option Param
deriving DecidableEq, Repr

/-- `self.func(x, self.W)` / `self.func(x, self.W, self.b)`. -/
def GraphConvolutionFunction.apply (f : GraphConvolutionFunction) (x : Arr)
    (W : Param) (b : Option Param) : FuncCall := ⟨f, x, W, b⟩

/-- The persistent state of a `GraphConvolution` link
(`lib/links/connection/graph_convolution.py`). -/
structure GraphConvolution where
  K : Nat
  out_channels : Nat
  W_initializer : List Nat → List ℚ
  has_uninitialized_params : Bool
  W : Param
  b : Option Param
  func : GraphConvolutionFunction
  device_id : Option Nat

/-- `GraphConvolution._initialize_params(in_channels)`: binds `W` to a
fresh `Parameter` of shape `(out_channels, in_channels, K)` filled by the
stored initializer. -/
def GraphConvolution._initialize_params (gc : GraphConvolution) (in_channels : Nat) :
    GraphConvolution :=
  let W_shape := [gc.out_channels, in_channels, gc.K]
  { gc with W := ⟨some ⟨W_shape, gc.W_initializer W_shape⟩, .cpu⟩ }

/-- The bias `Parameter` of shape `(out_channels,)`: filled with the
scalar `bias` when no `initial_bias` is given, else by the given
initializer (`initial_bias = bias; Parameter(bias_initializer,
shape=out_channels)` in the source). -/
def mkBiasParam (out_channels : Nat) (bias : ℚ)
    (bInit : Option (List Nat → List ℚ)) : Param :=
  match bInit with
  | none => ⟨some ⟨[out_channels], List.replicate out_channels bias⟩, .cpu⟩
  | some f => ⟨some ⟨[out_channels], f [out_channels]⟩, .cpu⟩

/-- `GraphConvolution.__init__(in_channels, out_channels, A, K, bias,
nobias, initialW, initial_bias)`.  Computes the Laplacian from `A` first;
a `none` `in_channels` leaves `W` an empty `Parameter()` and marks
`has_uninitialized_params`; the bias parameter has shape
`(out_channels,)` unless `nobias`. -/
def GraphConvolution.init (in_channels : Option Nat) (out_channels : Nat) (A : Mat)
    (K : Nat) (bias : ℚ) (nobias : Bool) (wInit : List Nat → List ℚ)
    (bInit : Option (List Nat → List ℚ)) : Except GCError GraphConvolution :=
  match create_laplacian A with
  | .error e => .error e
  | .ok L =>
    let Wp : Param × Bool :=
      match in_channels with
      | none => (⟨none, .cpu⟩, true)
      | some c =>
        (⟨some ⟨[out_channels, c, K], wInit [out_channels, c, K]⟩, .cpu⟩, false)
    let bp : Option Param :=
      if nobias then none else some (mkBiasParam out_channels bias bInit)
    .ok { K := K, out_channels := out_channels, W_initializer := wInit,
          has_uninitialized_params := Wp.2, W := Wp.1, b := bp,
          func := ⟨L, K, .cpu⟩, device_id := none }

/-- `GraphConvolution.to_cpu`: the inherited hook moves the registered
parameters, then `self.func.to_cpu()` moves the Laplacian buffer. -/
def GraphConvolution.to_cpu (gc : GraphConvolution) : GraphConvolution :=
  { gc with W := gc.W.to_cpu, b := gc.b.map Param.to_cpu, func := gc.func.to_cpu }

/-- `GraphConvolution.to_gpu(device)`: moves `W`, `b` (when present) and
the filter buffers onto the given gpu device. -/
def GraphConvolution.to_gpu (gc : GraphConvolution) (device : Option Nat) :
    GraphConvolution :=
  { gc with device_id := device, W := gc.W.to_gpu device,
            b := gc.b.map (Param.to_gpu · device),
            func := gc.func.to_gpu device }

/-- `GraphConvolution.__call__(x)`.  When `has_uninitialized_params` is
set it initializes `W` from `x.shape[1]`, and, if cuda is available, also
moves the whole link to gpu; then applies the filter with `W` and, unless
absent, `b`.  Returns the post-call link state and the filter
application. -/
def GraphConvolution.call (gc : GraphConvolution) (cuda_available : Bool) (x : Arr) :
    GraphConvolution × FuncCall :=
  let gc :=
    if gc.has_uninitialized_params then
      if cuda_available then
        (gc._initialize_params (x.shape.getD 1 0)).to_gpu gc.device_id
      else
        gc._initialize_params (x.shape.getD 1 0)
    else gc
  match gc.b with
  | none => (gc, gc.func.apply x gc.W none)
  | some bp => (gc, gc.func.apply x gc.W (some bp))

/-- A pooling index map: for each coarse node, the fine-level indices it
aggregates. -/
abbrev PoolMap := List (List Nat)

/-- Elements of a list at indices 0, k, 2k, ... (the graphs `combine`
keeps). -/
def everyNth (k : Nat) (l : List α) : List α :=
  (l.enum.filter (fun p => p.1 % k == 0)).map Prod.snd

/-- Split a list into consecutive chunks whose size is the first
argument. -/
def chunks : Nat → List α → List (List α)
  | _, [] => []
  | 0, _ :: _ => []
  | k + 1, a :: t => (a :: t).take (k + 1) :: chunks (k + 1) (t.drop k)
termination_by _ l => l.length
decreasing_by simp [List.length_drop]; omega

/-- Substitute each entry of the accumulated map through the next finer
map (index chasing). -/
def composeStep (acc nxt : PoolMap) : PoolMap :=
  acc.map (fun e => (e.map (fun t => nxt.getD t [])).flatten)

/-- Compose one group of consecutive pooling maps into a single map. -/
def combineGroup (ms : List PoolMap) : PoolMap :=
  match ms with
  | [] => []
  | m :: rest => rest.foldl composeStep m

/-- Modelled from the spec: `lib.coarsening.combine(graphs, pooling_maps,
factor)` (file absent from `src/`).  Keeps every `factor`-th graph and
composes each group of `factor` consecutive pooling maps into one by index
chasing; fails with `ConfigurationError` when the number of maps is not a
(positive) multiple of `factor`. -/
def combine (graphs : List Mat) (maps : List PoolMap) (factor : Nat) :
    Except GCError (List Mat × List PoolMap) :=
  if factor == 0 || maps.length % factor != 0 then .error .ConfigurationError
  else .ok (everyNth factor graphs, (chunks factor maps).map combineGroup)

/-- `GraphMaxPoolingFunction(inds)` from
`lib/functions/pooling/graph_max_pooling.py` (file absent from `src/`).
Modelled from the spec: the pooling operator owns its pooling index map. -/
structure GraphMaxPoolingFunction where
  inds : PoolMap
deriving DecidableEq, Repr

/-- A chainer `L.Linear(in_size, out_size)` layer, recorded by its
constructor arguments (its internals are external library code). -/
structure Linear where
  in_size : Option Nat
  out_size : Nat
deriving DecidableEq, Repr

/-- The persistent state of a `GraphCNN` model (`lib/models/graph_cnn.py`):
the (filter, pooling) pairs, the hidden linear layers, the classification
layer and the `train` flag. -/
structure GraphCNN where
  graph_layers : List (GraphConvolution × GraphMaxPoolingFunction)
  linear_layers : List Linear
  cls_layer : Linear
  train : Bool

/-- `GraphCNN.__init__(A, n_out)`.  `coarsen` is `lib.coarsening.coarsen`
(file absent from `src/`), taken as an explicit argument satisfying the
contract the spec gives for it.  Coarsens `A` with `levels=4`, combines
the levels with factor 2, then builds one `GraphConvolution(None, s, g,
K=25)` plus one `GraphMaxPoolingFunction(inds)` per `(g, inds, s)` triple
with sizes `[32, 64]`, a 512-unit linear layer and an `n_out`-way
classifier. -/
def GraphCNN.init
    (coarsen : Mat → Nat → Except GCError (List Mat × List PoolMap))
    (wInit : List Nat → List ℚ) (A : Mat) (n_out : Nat) :
    Except GCError GraphCNN := do
  let (graphs, pooling_inds) ← coarsen A 4
  let (graphs, pooling_inds) ← combine graphs pooling_inds 2
  let sizes := [32, 64]
  let triples := (graphs.zip pooling_inds).zip sizes
  let graph_layers ← triples.mapM (fun gis => do
    let f ← GraphConvolution.init none gis.2 gis.1.1 25 0 false wInit none
    pure (f, GraphMaxPoolingFunction.mk gis.1.2))
  pure { graph_layers := graph_layers,
         linear_layers := [⟨none, 512⟩],
         cls_layer := ⟨none, n_out⟩,
         train := true }

/-- The external chainer functions `GraphCNN.__call__` composes: filter
and pooling application, `F.relu`, `F.dropout` (randomness fixed by the
environment), linear application, `F.softmax_cross_entropy` and
`accuracy.accuracy`.  All are out-of-scope library services, so the
forward pass is parametric in them. -/
structure NetEnv (Sig Lbl : Type) where
  gconv : GraphConvolution → Sig → Sig
  pool : GraphMaxPoolingFunction → Sig → Sig
  relu : Sig → Sig
  dropout : Sig → ℚ → Sig
  linear : Linear → Sig → Sig
  softmax_cross_entropy : Sig → Lbl → Sig
  accuracy : Sig → Lbl → Sig

/-- The value `GraphCNN.__call__` returns: raw scores, or a loss. -/
inductive CallRet (Sig : Type) where
  | scores : Sig → CallRet Sig
  | loss : Sig → CallRet Sig
deriving DecidableEq, Repr

/-- Return value together with what was sent to `reporter.report`. -/
structure CallOut (Sig : Type) where
  ret : CallRet Sig
  reported : List (String × Sig)
deriving DecidableEq, Repr

/-- The class-score computation shared by both call forms: graph
convolution layers (`p(relu(f(h)))`), linear layers
(`relu(dropout(f(h), 0.5))`), then the classification layer. -/
def GraphCNN.scores (env : NetEnv Sig Lbl) (m : GraphCNN) (x : Sig) : Sig :=
  let h := m.graph_layers.foldl (fun h fp => env.pool fp.2 (env.relu (env.gconv fp.1 h))) x
  let h := m.linear_layers.foldl (fun h f => env.relu (env.dropout (env.linear f h) (1/2))) h
  env.linear m.cls_layer h

/-- `GraphCNN.__call__(x, *args)`: computes the scores; with no extra
arguments returns them, with a label argument computes the
softmax-cross-entropy loss and the accuracy, reports both, and returns
only the loss. -/
def GraphCNN.call (env : NetEnv Sig Lbl) (m : GraphCNN) (x : Sig)
    (args : Option Lbl) : CallOut Sig :=
  let h := GraphCNN.scores env m x
  match args with
  | some labels =>
    let loss := env.softmax_cross_entropy h labels
    let acc := env.accuracy h labels
    { ret := .loss loss, reported := [("loss", loss), ("accuracy", acc)] }
  | none => { ret := .scores h, reported := [] }

/-! Helper lemmas shared by the claim theorems. -/

/-- A successful Laplacian build comes from a valid adjacency matrix and
returns the operator derived from it. -/
theorem create_laplacian_ok {A : Mat} {L : Laplacian}
    (h : create_laplacian A = .ok L) : L = ⟨A⟩ ∧ validAdjacency A = true := by
  unfold create_laplacian at h
  by_cases hv : validAdjacency A = true
  · rw [if_pos hv] at h
    injection h with h
    exact ⟨h.symm, hv⟩
  · rw [if_neg hv] at h
    cases h

/-- Constructing with a concrete `in_channels` yields exactly this record. -/
theorem init_some_eq {c out K : Nat} {A : Mat} {bias : ℚ} {nobias : Bool}
    {wInit : List Nat → List ℚ} {bInit : Option (List Nat → List ℚ)}
    {gc : GraphConvolution}
    (h : GraphConvolution.init (some c) out A K bias nobias wInit bInit = .ok gc) :
    gc = { K := K, out_channels := out, W_initializer := wInit,
           has_uninitialized_params := false,
           W := ⟨some ⟨[out, c, K], wInit [out, c, K]⟩, .cpu⟩,
           b := if nobias then none else some (mkBiasParam out bias bInit),
           func := ⟨⟨A⟩, K, .cpu⟩, device_id := none } := by
  unfold GraphConvolution.init at h
  cases hL : create_laplacian A <;> rw [hL] at h
  · cases h
  · obtain ⟨hLeq, -⟩ := create_laplacian_ok hL
    subst hLeq
    injection h with h
    exact h.symm

/-- Constructing with `in_channels = None` yields exactly this record. -/
theorem init_none_eq {out K : Nat} {A : Mat} {bias : ℚ} {nobias : Bool}
    {wInit : List Nat → List ℚ} {bInit : Option (List Nat → List ℚ)}
    {gc : GraphConvolution}
    (h : GraphConvolution.init none out A K bias nobias wInit bInit = .ok gc) :
    gc = { K := K, out_channels := out, W_initializer := wInit,
           has_uninitialized_params := true,
           W := ⟨none, .cpu⟩,
           b := if nobias then none else some (mkBiasParam out bias bInit),
           func := ⟨⟨A⟩, K, .cpu⟩, device_id := none } := by
  unfold GraphConvolution.init at h
  cases hL : create_laplacian A <;> rw [hL] at h
  · cases h
  · obtain ⟨hLeq, -⟩ := create_laplacian_ok hL
    subst hLeq
    injection h with h
    exact h.symm

/-- A call never changes the logical Laplacian held by the filter. -/
theorem call_preserves_laplacian (gc : GraphConvolution) (cuda : Bool) (x : Arr) :
    ((gc.call cuda x).1).func.LL = gc.func.LL ∧
    ((gc.call cuda x).2).func.LL = gc.func.LL := by
  unfold GraphConvolution.call
  cases hu : gc.has_uninitialized_params <;> cases cuda <;> cases hb : gc.b <;>
    simp [hu, hb, GraphConvolution._initialize_params, GraphConvolution.to_gpu,
      GraphConvolutionFunction.to_gpu, GraphConvolutionFunction.apply]

/-- Sample zero initializer used by concrete witnesses. -/
def wInit0 : List Nat → List ℚ := fun s => List.replicate (s.foldl (· * ·) 1) 0

/-- A small valid adjacency matrix (two nodes, one edge). -/
def A2 : Mat := [[0, 1], [1, 0]]

/-- The link state `GraphConvolution(None, 1, A2, K=2)` constructs. -/
def gcLazy : GraphConvolution :=
  { K := 2, out_channels := 1, W_initializer := wInit0,
    has_uninitialized_params := true,
    W := ⟨none, .cpu⟩,
    b := some ⟨some ⟨[1], List.replicate 1 0⟩, .cpu⟩,
    func := ⟨⟨A2⟩, 2, .cpu⟩, device_id := none }

/-- The link state `GraphConvolution(2, 3, A2, K=5)` constructs. -/
def gcSample : GraphConvolution :=
  { K := 5, out_channels := 3, W_initializer := wInit0,
    has_uninitialized_params := false,
    W := ⟨some ⟨[3, 2, 5], wInit0 [3, 2, 5]⟩, .cpu⟩,
    b := some ⟨some ⟨[3], List.replicate 3 0⟩, .cpu⟩,
    func := ⟨⟨A2⟩, 5, .cpu⟩, device_id := none }

/-! Claim theorems. -/

/-- C1: the claim says that with `in_channels = None` the weight `W` is
created exactly once, at the first forward call, and reused afterwards.
The code never resets `has_uninitialized_params`, so every call re-runs
`_initialize_params` and rebinds `W` to a freshly initialized parameter:
after a first call with channel count 3 the flag is still set and a second
call with channel count 5 replaces the weight (its shape follows the new
input), contradicting the claim and the docstring of the link. -/
theorem C1_lazy_weight_reinitialized_every_call :
    GraphConvolution.init none 1 A2 2 0 false wInit0 none = .ok gcLazy
    ∧ (gcLazy.call false ⟨[1, 3, 2], []⟩).1.has_uninitialized_params = true
    ∧ (gcLazy.call false ⟨[1, 3, 2], []⟩).1.W.arr.map Arr.shape = some [1, 3, 2]
    ∧ ((gcLazy.call false ⟨[1, 3, 2], []⟩).1.call false ⟨[1, 5, 2], []⟩).1.W.arr.map
        Arr.shape = some [1, 5, 2] :=
  ⟨rfl, rfl, rfl, rfl⟩

/-- C2: a link constructed with a concrete `in_channels` has its lazy flag
clear, so a forward call leaves the entire persistent state (`W`, `b`,
`func` with its Laplacian, `K`, `out_channels`, the flag) unchanged. -/
theorem C2_call_preserves_state (c out K : Nat) (A : Mat) (bias : ℚ)
    (nobias : Bool) (wInit : List Nat → List ℚ)
    (bInit : Option (List Nat → List ℚ)) (gc : GraphConvolution)
    (h : GraphConvolution.init (some c) out A K bias nobias wInit bInit = .ok gc)
    (cuda : Bool) (x : Arr) :
    (gc.call cuda x).1 = gc := by
  have hflag : gc.has_uninitialized_params = false := by rw [init_some_eq h]
  unfold GraphConvolution.call
  rw [hflag]
  cases hb : gc.b <;> simp [hb]

/-- C2 witness: a concrete constructed link is unchanged by a call. -/
theorem C2_call_preserves_state_witness :
    (gcSample.call false ⟨[1, 2, 2], []⟩).1 = gcSample :=
  C2_call_preserves_state 2 3 5 A2 0 false wInit0 none gcSample rfl false
    ⟨[1, 2, 2], []⟩

/-- C3: the Laplacian the filter holds is exactly the one
`create_laplacian` derives from `A` in `__init__`, handed to the single
filter function built there (with the same `K`); a forward call neither
recomputes nor replaces it, and the filter application consumes that same
Laplacian. -/
theorem C3_laplacian_computed_once (inc : Option Nat) (out K : Nat) (A : Mat)
    (bias : ℚ) (nobias : Bool) (wInit : List Nat → List ℚ)
    (bInit : Option (List Nat → List ℚ)) (gc : GraphConvolution)
    (h : GraphConvolution.init inc out A K bias nobias wInit bInit = .ok gc)
    (cuda : Bool) (x : Arr) :
    create_laplacian A = .ok gc.func.LL
    ∧ gc.func.K = K
    ∧ ((gc.call cuda x).1).func.LL = gc.func.LL
    ∧ ((gc.call cuda x).2).func.LL = gc.func.LL := by
  have hpre : create_laplacian A = .ok gc.func.LL ∧ gc.func.K = K := by
    unfold GraphConvolution.init at h
    cases hL : create_laplacian A <;> rw [hL] at h
    · cases h
    · injection h with h
      rw [← h]
      exact ⟨rfl, rfl⟩
  exact ⟨hpre.1, hpre.2, (call_preserves_laplacian gc cuda x).1,
    (call_preserves_laplacian gc cuda x).2⟩

/-- C3 witness: concrete instance of the Laplacian-once property. -/
theorem C3_laplacian_computed_once_witness :
    create_laplacian A2 = .ok gcSample.func.LL
    ∧ gcSample.func.K = 5
    ∧ ((gcSample.call false ⟨[1, 2, 2], []⟩).1).func.LL = gcSample.func.LL
    ∧ ((gcSample.call false ⟨[1, 2, 2], []⟩).2).func.LL = gcSample.func.LL :=
  C3_laplacian_computed_once (some 2) 3 5 A2 0 false wInit0 none gcSample rfl
    false ⟨[1, 2, 2], []⟩

/-- C5: the weight has shape `(out_channels, in_channels, K)` — both when
constructed eagerly and whenever `_initialize_params` runs — the bias,
absent `nobias`, has shape `(out_channels,)`, with `nobias` no bias
parameter exists, and every forward call passes the link-owned `W` and `b`
(or no bias) into the filter function. -/
theorem C5_weight_bias_shapes_and_passing (c out K : Nat) (A : Mat) (bias : ℚ)
    (nobias : Bool) (wInit : List Nat → List ℚ)
    (bInit : Option (List Nat → List ℚ)) (gc : GraphConvolution)
    (h : GraphConvolution.init (some c) out A K bias nobias wInit bInit = .ok gc)
    (cuda : Bool) (x : Arr) :
    gc.W.arr.map Arr.shape = some [out, c, K]
    ∧ (gc.call cuda x).2.W = gc.W
    ∧ (gc.call cuda x).2.b = gc.b
    ∧ (nobias = false → gc.b.map (fun p => p.arr.map Arr.shape) = some (some [out]))
    ∧ (nobias = true → gc.b = none)
    ∧ (∀ (g : GraphConvolution) (ch : Nat),
        (g._initialize_params ch).W.arr.map Arr.shape = some [g.out_channels, ch, g.K]) := by
  have hgc := init_some_eq h
  subst hgc
  refine ⟨rfl, ?_, ?_, ?_, ?_, fun g ch => rfl⟩
  · cases nobias <;> cases bInit <;>
      simp [GraphConvolution.call, GraphConvolutionFunction.apply, mkBiasParam]
  · cases nobias <;> cases bInit <;>
      simp [GraphConvolution.call, GraphConvolutionFunction.apply, mkBiasParam]
  · intro hnb
    subst hnb
    cases bInit <;> simp [mkBiasParam]
  · intro hnb
    subst hnb
    rfl

/-- C5 witness: concrete shapes for a link with `in_channels=2`,
`out_channels=3`, `K=5`. -/
theorem C5_weight_bias_shapes_and_passing_witness :
    gcSample.W.arr.map Arr.shape = some [3, 2, 5]
    ∧ (gcSample.call false ⟨[1, 2, 2], []⟩).2.W = gcSample.W
    ∧ (gcSample.call false ⟨[1, 2, 2], []⟩).2.b = gcSample.b
    ∧ (false = false →
        gcSample.b.map (fun p => p.arr.map Arr.shape) = some (some [3]))
    ∧ (false = true → gcSample.b = none)
    ∧ (∀ (g : GraphConvolution) (ch : Nat),
        (g._initialize_params ch).W.arr.map Arr.shape = some [g.out_channels, ch, g.K]) :=
  C5_weight_bias_shapes_and_passing 2 3 5 A2 0 false wInit0 none gcSample rfl
    false ⟨[1, 2, 2], []⟩

/-- C6: `to_cpu` and `to_gpu` put the weight, the bias (when present) and
the filter Laplacian buffer on the same backend, and change none of their
logical values. -/
theorem C6_device_transfer_consistent (gc : GraphConvolution) (d : Option Nat) :
    (gc.to_cpu.W.dev = .cpu
      ∧ gc.to_cpu.b.map Param.dev = gc.b.map (fun _ => Device.cpu)
      ∧ gc.to_cpu.func.dev = .cpu
      ∧ gc.to_cpu.W.arr = gc.W.arr
      ∧ gc.to_cpu.b.map Param.arr = gc.b.map Param.arr
      ∧ gc.to_cpu.func.LL = gc.func.LL)
    ∧ ((gc.to_gpu d).W.dev = .gpu d
      ∧ (gc.to_gpu d).b.map Param.dev = gc.b.map (fun _ => Device.gpu d)
      ∧ (gc.to_gpu d).func.dev = .gpu d
      ∧ (gc.to_gpu d).W.arr = gc.W.arr
      ∧ (gc.to_gpu d).b.map Param.arr = gc.b.map Param.arr
      ∧ (gc.to_gpu d).func.LL = gc.func.LL) := by
  cases hb : gc.b <;>
    simp [GraphConvolution.to_cpu, GraphConvolution.to_gpu, hb, Param.to_cpu,
      Param.to_gpu, GraphConvolutionFunction.to_cpu, GraphConvolutionFunction.to_gpu]

/-- C7: a malformed adjacency matrix makes `create_laplacian` fail with
`InvalidGraphError`, and since it is the first thing `__init__` runs, link
construction propagates that error synchronously and produces no state. -/
theorem C7_invalid_graph_error_propagates (inc : Option Nat) (out K : Nat)
    (A : Mat) (bias : ℚ) (nobias : Bool) (wInit : List Nat → List ℚ)
    (bInit : Option (List Nat → List ℚ))
    (h : validAdjacency A = false) :
    create_laplacian A = .error .InvalidGraphError
    ∧ GraphConvolution.init inc out A K bias nobias wInit bInit
        = .error .InvalidGraphError := by
  have hL : create_laplacian A = .error .InvalidGraphError := by
    unfold create_laplacian
    rw [if_neg (by simp [h])]
  refine ⟨hL, ?_⟩
  unfold GraphConvolution.init
  rw [hL]

/-- C7 witness: a non-square adjacency matrix fails construction. -/
theorem C7_invalid_graph_error_propagates_witness :
    create_laplacian [[0, 1]] = .error .InvalidGraphError
    ∧ GraphConvolution.init none 1 [[0, 1]] 2 0 false wInit0 none
        = .error .InvalidGraphError :=
  C7_invalid_graph_error_propagates none 1 2 [[0, 1]] 0 false wInit0 none
    (by decide)

/-- C9: on a link built with `in_channels = None`, a forward call with
cuda available initializes `W` from `x.shape[1]` and then moves the whole
link (weight, bias, Laplacian buffer) to gpu via `to_gpu`; with cuda
unavailable it only rebinds `W` and performs no device transfer. -/
theorem C9_lazy_first_call_device_effects (out K : Nat) (A : Mat) (bias : ℚ)
    (nobias : Bool) (wInit : List Nat → List ℚ)
    (bInit : Option (List Nat → List ℚ)) (gc : GraphConvolution)
    (h : GraphConvolution.init none out A K bias nobias wInit bInit = .ok gc)
    (x : Arr) :
    ((gc.call true x).1
        = (gc._initialize_params (x.shape.getD 1 0)).to_gpu gc.device_id
      ∧ (gc.call true x).1.W.dev = .gpu gc.device_id
      ∧ (gc.call true x).1.W.arr.map Arr.shape = some [out, x.shape.getD 1 0, K]
      ∧ (gc.call true x).1.b.map Param.dev = gc.b.map (fun _ => Device.gpu gc.device_id)
      ∧ (gc.call true x).1.func.dev = .gpu gc.device_id
      ∧ (gc.call true x).1.func.LL = gc.func.LL)
    ∧ ((gc.call false x).1
        = { gc with W := (gc._initialize_params (x.shape.getD 1 0)).W }
      ∧ (gc.call false x).1.W.dev = .cpu
      ∧ (gc.call false x).1.W.arr.map Arr.shape = some [out, x.shape.getD 1 0, K]
      ∧ (gc.call false x).1.b = gc.b
      ∧ (gc.call false x).1.func = gc.func) := by
  have hgc := init_none_eq h
  subst hgc
  cases nobias <;> cases bInit <;>
    simp [GraphConvolution.call, GraphConvolution._initialize_params,
      GraphConvolution.to_gpu, Param.to_gpu, GraphConvolutionFunction.to_gpu,
      mkBiasParam]

/-- C9 witness: concrete first-call effects for the lazily built link. -/
theorem C9_lazy_first_call_device_effects_witness :
    ((gcLazy.call true ⟨[1, 3, 2], []⟩).1
        = (gcLazy._initialize_params 3).to_gpu gcLazy.device_id
      ∧ (gcLazy.call true ⟨[1, 3, 2], []⟩).1.W.dev = .gpu gcLazy.device_id
      ∧ (gcLazy.call true ⟨[1, 3, 2], []⟩).1.W.arr.map Arr.shape = some [1, 3, 2]
      ∧ (gcLazy.call true ⟨[1, 3, 2], []⟩).1.b.map Param.dev
          = gcLazy.b.map (fun _ => Device.gpu gcLazy.device_id)
      ∧ (gcLazy.call true ⟨[1, 3, 2], []⟩).1.func.dev = .gpu gcLazy.device_id
      ∧ (gcLazy.call true ⟨[1, 3, 2], []⟩).1.func.LL = gcLazy.func.LL)
    ∧ ((gcLazy.call false ⟨[1, 3, 2], []⟩).1
        = { gcLazy with W := (gcLazy._initialize_params 3).W }
      ∧ (gcLazy.call false ⟨[1, 3, 2], []⟩).1.W.dev = .cpu
      ∧ (gcLazy.call false ⟨[1, 3, 2], []⟩).1.W.arr.map Arr.shape = some [1, 3, 2]
      ∧ (gcLazy.call false ⟨[1, 3, 2], []⟩).1.b = gcLazy.b
      ∧ (gcLazy.call false ⟨[1, 3, 2], []⟩).1.func = gcLazy.func) :=
  C9_lazy_first_call_device_effects 1 2 A2 0 false wInit0 none gcLazy rfl
    ⟨[1, 3, 2], []⟩

/-- C8: `GraphCNN.__call__(x)` returns the raw class scores; with labels
it returns only the softmax-cross-entropy loss of those same scores, while
the accuracy is sent to the reporter and never returned; the score
computation applied to `x` is the same in both call forms. -/
theorem C8_call_returns_scores_or_loss (Sig Lbl : Type) (env : NetEnv Sig Lbl)
    (m : GraphCNN) (x : Sig) (labels : Lbl) :
    (GraphCNN.call env m x none).ret = .scores (GraphCNN.scores env m x)
    ∧ (GraphCNN.call env m x (some labels)).ret
        = .loss (env.softmax_cross_entropy (GraphCNN.scores env m x) labels)
    ∧ (GraphCNN.call env m x none).reported = []
    ∧ (GraphCNN.call env m x (some labels)).reported
        = [("loss", env.softmax_cross_entropy (GraphCNN.scores env m x) labels),
           ("accuracy", env.accuracy (GraphCNN.scores env m x) labels)] :=
  ⟨rfl, rfl, rfl, rfl⟩

/-- C10: the forward pass never reads the `train` flag (the dropout ratio
is the constant 0.5), so two model states differing only in `train`
produce the same call result on every input, label choice and dropout
randomness, and construction sets the flag to `true`. -/
theorem C10_train_flag_not_read (Sig Lbl : Type) (env : NetEnv Sig Lbl)
    (m : GraphCNN) (t : Bool) (x : Sig) (args : Option Lbl) :
    GraphCNN.call env { m with train := t } x args = GraphCNN.call env m x args :=
  rfl

/-- The link state `GraphConvolution(None, out, g, K=25)` constructs from
a valid adjacency matrix `g` (used by the GraphCNN constructor). -/
def lazyLink (out : Nat) (g : Mat) (wInit : List Nat → List ℚ) : GraphConvolution :=
  { K := 25, out_channels := out, W_initializer := wInit,
    has_uninitialized_params := true,
    W := ⟨none, .cpu⟩,
    b := some (mkBiasParam out 0 none),
    func := ⟨⟨g⟩, 25, .cpu⟩, device_id := none }

/-- On a valid adjacency matrix the GraphCNN layer constructor call
`GraphConvolution(None, s, g, K=25)` succeeds with the lazy link state. -/
theorem init_lazyLink {out : Nat} {g : Mat} {wInit : List Nat → List ℚ}
    (hv : validAdjacency g = true) :
    GraphConvolution.init none out g 25 0 false wInit none
      = .ok (lazyLink out g wInit) := by
  unfold GraphConvolution.init create_laplacian
  rw [if_pos hv]
  rfl

/-- C4: under the coarsen contract (5 graphs and 4 pooling maps for
`levels = 4`, all graphs valid), `GraphCNN.__init__` combines with factor
2 and builds exactly two `(GraphConvolution, GraphMaxPoolingFunction)`
pairs with `out_channels` 32 and 64 and `K = 25`, one 512-unit linear
layer, and an `n_out`-way classification layer. -/
theorem C4_gc32_p4_gc64_p4_fc512_architecture
    (coarsen : Mat → Nat → Except GCError (List Mat × List PoolMap))
    (wInit : List Nat → List ℚ) (A : Mat) (n_out : Nat)
    (graphs : List Mat) (maps : List PoolMap)
    (hc : coarsen A 4 = .ok (graphs, maps))
    (hg : graphs.length = 5) (hm : maps.length = 4)
    (hvalid : ∀ g ∈ graphs, validAdjacency g = true) :
    ∃ m : GraphCNN, GraphCNN.init coarsen wInit A n_out = .ok m
      ∧ m.graph_layers.length = 2
      ∧ m.graph_layers.map (fun l => l.1.out_channels) = [32, 64]
      ∧ m.graph_layers.map (fun l => l.1.K) = [25, 25]
      ∧ m.linear_layers = [⟨none, 512⟩]
      ∧ m.cls_layer = ⟨none, n_out⟩ := by
  match graphs, hg with
  | [g0, g1, g2, g3, g4], _ =>
  match maps, hm with
  | [p0, p1, p2, p3], _ =>
  have h0 : validAdjacency g0 = true := hvalid g0 (by simp)
  have h2 : validAdjacency g2 = true := hvalid g2 (by simp)
  refine ⟨{ graph_layers :=
              [(lazyLink 32 g0 wInit, ⟨composeStep p0 p1⟩),
               (lazyLink 64 g2 wInit, ⟨composeStep p2 p3⟩)],
            linear_layers := [⟨none, 512⟩],
            cls_layer := ⟨none, n_out⟩,
            train := true }, ?_, rfl, rfl, rfl, rfl, rfl⟩
  unfold GraphCNN.init
  rw [hc]
  simp only [Except.bind, bind]
  simp [combine, everyNth, chunks, combineGroup, List.enum, init_lazyLink h0,
    init_lazyLink h2, List.mapM, List.mapM.loop]
  rfl

/-- A constant coarsening function satisfying the coarsen contract for
`levels = 4`, used to instantiate the architecture theorem concretely. -/
def coarsenConst : Mat → Nat → Except GCError (List Mat × List PoolMap) :=
  fun _ _ => .ok ([A2, A2, A2, A2, A2], [[[0, 1]], [[0, 1]], [[0, 1]], [[0, 1]]])

/-- C4 witness: the architecture built over a concrete coarsening of the
two-node graph. -/
theorem C4_gc32_p4_gc64_p4_fc512_architecture_witness :
    ∃ m : GraphCNN, GraphCNN.init coarsenConst wInit0 A2 7 = .ok m
      ∧ m.graph_layers.length = 2
      ∧ m.graph_layers.map (fun l => l.1.out_channels) = [32, 64]
      ∧ m.graph_layers.map (fun l => l.1.K) = [25, 25]
      ∧ m.linear_layers = [⟨none, 512⟩]
      ∧ m.cls_layer = ⟨none, 7⟩ :=
  C4_gc32_p4_gc64_p4_fc512_architecture coarsenConst wInit0 A2 7
    [A2, A2, A2, A2, A2] [[[0, 1]], [[0, 1]], [[0, 1]], [[0, 1]]] rfl rfl rfl
    (by decide)

end ChainerGraphCNN
